import Mathlib

/-!
Shallow embedding of `conans/build_info/build_info.py`: the artifact data
model, the lockfile-graph traversal `_gather_deps`, the environment snapshot
of `BuildInfoCreator.create`, and the document merge (`find_module`,
`merge_artifacts`, `merge_buildinfo`).
-/

set_option autoImplicit false

namespace BuildInfo

/-- Artifact record from the source: a namedtuple with fields `sha1`, `md5`,
`name`, `id`.  The source overrides only `__hash__` (to `hash(self.sha1)`);
equality stays the namedtuple's componentwise tuple equality, which the
derived `DecidableEq` mirrors.  `name`/`id` are `Option` because the
serialization omits whichever of them is `None`. -/
structure Artifact where
  sha1 : String
  md5 : String
  name : Option String
  id : Option String
deriving DecidableEq

/-- The `__hash__` override of the `Artifact` class hashes only the `sha1`
field: the hash key of an artifact is its `sha1`. -/
def Artifact.hashKey (a : Artifact) : String := a.sha1

/-- The `cmp_key` argument of `merge_artifacts`: which field indexes artifact
entries, `"name"` for a module's artifacts, `"id"` for its dependencies. -/
inductive CmpKey
  | name
  | id
deriving DecidableEq

/-- `art[cmp_key]` of the source: read the field selected by `cmp_key`. -/
def Artifact.get (a : Artifact) : CmpKey → Option String
  | CmpKey.name => a.name
  | CmpKey.id => a.id

/-- Insertion-ordered dictionary on artifact entries, modelling the Python
dict used by `merge_artifacts`: updating an existing key keeps its position
and replaces the value; a fresh key is appended at the end. -/
def dictInsert (d : List (Option String × Artifact)) (k : Option String) (v : Artifact) :
    List (Option String × Artifact) :=
  if d.any (fun p => p.1 == k) then
    d.map (fun p => if p.1 == k then (k, v) else p)
  else
    d ++ [(k, v)]

/-- `ret[k]` of the source dict: the value stored under key `k`, if any. -/
def dictGet (d : List (Option String × Artifact)) (k : Option String) : Option Artifact :=
  (d.find? (fun p => p.1 == k)).map (fun p => p.2)

/-- The dict comprehension `ret = {it[cmp_key]: it for it in lhs[key]}` of
`merge_artifacts`. -/
def buildRetDict (ck : CmpKey) (arts : List Artifact) : List (Option String × Artifact) :=
  arts.foldl (fun d it => dictInsert d (it.get ck) it) []

/-- Body of the `for art in rhs[key]` loop of `merge_artifacts`: if the
entry's key is already present, assert
`art[cmp_key] == ret[art_cmp_key][cmp_key]` (modelled as the conflict error
`ArtifactConflictError` when the comparison fails), otherwise insert the
entry. -/
def mergeArtifactsStep (ck : CmpKey) (d : List (Option String × Artifact)) (art : Artifact) :
    Except String (List (Option String × Artifact)) :=
  match dictGet d (art.get ck) with
  | some stored =>
      if art.get ck = stored.get ck then pure d
      else Except.error "ArtifactConflictError"
  | none => pure (dictInsert d (art.get ck) art)

/-- `merge_artifacts(lhs, rhs, key, cmp_key)` of the source: index the
left-hand entries by `cmp_key`, fold the loop body over the right-hand
entries, and return the dict's values in insertion order. -/
def merge_artifacts (lhs rhs : List Artifact) (ck : CmpKey) :
    Except String (List Artifact) := do
  let ret ← rhs.foldlM (mergeArtifactsStep ck) (buildRetDict ck lhs)
  pure (ret.map (fun p => p.2))

/-- A module entry of a build-info document: `{"id": ..., "artifacts": [...],
"dependencies": [...]}`.  These are the only keys the merge touches. -/
structure Module where
  id : String
  artifacts : List Artifact
  dependencies : List Artifact
deriving DecidableEq

/-- A build-info document as the merge sees it: the fields `merge_buildinfo`
reads (`version`, `name`, `number`) plus the module list it rewrites.  The
empty document `{}` (Python-falsy) is modelled as `none` at the call sites. -/
structure BuildInfoDocument where
  version : String
  name : String
  number : String
  modules : List Module
deriving DecidableEq

/-- `find_module(build_info, module_id)` of the source: return the first
module with the given id; otherwise append a fresh empty module
`{"id": module_id, "artifacts": [], "dependencies": []}` and return it.  The
result pairs the found (or fresh) module with the possibly-extended module
list. -/
def find_module (modules : List Module) (mid : String) : Module × List Module :=
  match modules.find? (fun m => m.id == mid) with
  | some m => (m, modules)
  | none => (⟨mid, [], []⟩, modules ++ [⟨mid, [], []⟩])

/-- In-place update of the module `find_module` returned: replace the first
module carrying the given id. -/
def replaceFirstById : List Module → String → Module → List Module
  | [], _, _ => []
  | m :: rest, mid, nm =>
      if m.id == mid then nm :: rest else m :: replaceFirstById rest mid nm

/-- One iteration of the `for rhs_module in rhs["modules"]` loop of
`merge_buildinfo`: look up (or create) the module with the right-hand id,
merge artifacts keyed by `name` and dependencies keyed by `id`, and store the
merged lists back into that module. -/
def mergeStep (modules : List Module) (rhsm : Module) : Except String (List Module) := do
  let found := find_module modules rhsm.id
  let lm := found.1
  let ms := found.2
  let arts ← merge_artifacts lm.artifacts rhsm.artifacts CmpKey.name
  let deps ← merge_artifacts lm.dependencies rhsm.dependencies CmpKey.id
  pure (replaceFirstById ms rhsm.id { lm with artifacts := arts, dependencies := deps })

/-- `merge_buildinfo(lhs, rhs)` of the source.  An empty (falsy) document is
`none`: `if not lhs or not rhs: return lhs or rhs`.  For two non-empty
documents the `version`, `name` and `number` fields are asserted equal
(modelled as `IncompatibleDocumentsError`), then every right-hand module is
merged into the left-hand module list. -/
def merge_buildinfo (lhs rhs : Option BuildInfoDocument) :
    Except String (Option BuildInfoDocument) :=
  match lhs, rhs with
  | none, rhs => Except.ok rhs
  | some l, none => Except.ok (some l)
  | some l, some r =>
      if l.version ≠ r.version then Except.error "IncompatibleDocumentsError: version"
      else if l.name ≠ r.name then Except.error "IncompatibleDocumentsError: name"
      else if l.number ≠ r.number then Except.error "IncompatibleDocumentsError: number"
      else do
        let ms ← r.modules.foldlM mergeStep l.modules
        pure (some { l with modules := ms })

/-- A lockfile graph node as `_gather_deps` reads it: its `pref` string and
its `requires` mapping from dependency slot to child node uid (ordered). -/
structure LockNode where
  pref : String
  requires : List (String × String)
deriving DecidableEq

/-- The lockfile graph `contents["graph_lock"]["nodes"]`: an ordered mapping
from node uid to node. -/
structure LockGraph where
  nodes : List (String × LockNode)
deriving DecidableEq

/-- `contents["graph_lock"]["nodes"].get(node_uid)`. -/
def lookupNode (g : LockGraph) (uid : String) : Option LockNode :=
  (g.nodes.find? (fun p => p.1 == uid)).map (fun p => p.2)

/-- `_gather_deps(node_uid, contents, func)` of the source, with an explicit
recursion-depth bound `fuel` standing for the Python call stack (`none`
means the computation did not complete within that depth).  `res` abstracts
`func` (the artifact resolver applied to a node's `pref`); beside the
gathered artifact set the embedding returns, as instrumentation, the list of
`pref` values the resolver was invoked on, in call order.  The source
resolves the node's own `pref`, then recurses into every entry of
`requires`, unioning the artifact sets. -/
def gatherDeps (g : LockGraph) (res : String → Finset Artifact) :
    Nat → String → Option (Finset Artifact × List String)
  | 0, _ => none
  | fuel + 1, uid => do
      let node ← lookupNode g uid
      node.requires.foldlM
        (fun acc req => do
          let sub ← gatherDeps g res fuel req.2
          pure (acc.1 ∪ sub.1, acc.2 ++ sub.2))
        (res node.pref, [node.pref])

/-- The traversal of `_gather_deps` from `uid` never completes, whatever
recursion depth is allowed: the shallow-embedding rendering of unbounded
recursion (in CPython, a `RecursionError` once the interpreter limit is
hit). -/
def gatherDiverges (g : LockGraph) (res : String → Finset Artifact) (uid : String) : Prop :=
  ∀ fuel, gatherDeps g res fuel uid = none

/-- The `excluded` list of `BuildInfoCreator.create`. -/
def excludedEnv : List String := ["secret", "key", "password"]

/-- The environment snapshot of `BuildInfoCreator.create` when `skip_env` is
off: the dict comprehension keeps every variable whose name is not a member
of `excluded` (exact list membership, `k not in excluded`) and prefixes the
kept names with `buildInfo.env.`. -/
def env_properties (environ : List (String × String)) : List (String × String) :=
  (environ.filter (fun kv => !(excludedEnv.contains kv.1))).map
    (fun kv => ("buildInfo.env." ++ kv.1, kv.2))

/-! Concrete instances used to exercise the embedding. -/

/-- Left-hand conflicting artifact: module key "a", content hash "X". -/
def artConfX : Artifact := ⟨"X", "md5one", some "a", none⟩

/-- Right-hand conflicting artifact: same key "a", different content hash "Y". -/
def artConfY : Artifact := ⟨"Y", "md5two", some "a", none⟩

/-- Document holding module "m" with the sha1="X" artifact named "a". -/
def docConfL : BuildInfoDocument := ⟨"1.0.1", "mybuild", "42", [⟨"m", [artConfX], []⟩]⟩

/-- Document holding module "m" with the sha1="Y" artifact named "a". -/
def docConfR : BuildInfoDocument := ⟨"1.0.1", "mybuild", "42", [⟨"m", [artConfY], []⟩]⟩

def artRootD : Artifact := ⟨"shR", "mdR", none, some "root-art"⟩

def artAD : Artifact := ⟨"shA", "mdA", none, some "A-art"⟩

def artBD : Artifact := ⟨"shB", "mdB", none, some "B-art"⟩

def artCD1 : Artifact := ⟨"shC1", "mdC1", none, some "C-art-1"⟩

def artCD2 : Artifact := ⟨"shC2", "mdC2", none, some "C-art-2"⟩

/-- Resolver for the diamond graph: each pref has fixed artifacts; node C
carries two artifacts. -/
def diamondResolve (p : String) : Finset Artifact :=
  if p = "rootpref" then {artRootD}
  else if p = "Apref" then {artAD}
  else if p = "Bpref" then {artBD}
  else if p = "Cpref" then {artCD1, artCD2}
  else ∅

/-- The diamond lockfile graph of the spec: root requires A and B, each of
which requires C. -/
def diamondGraph : LockGraph :=
  ⟨[("root", ⟨"rootpref", [("1", "A"), ("2", "B")]⟩),
    ("A", ⟨"Apref", [("1", "C")]⟩),
    ("B", ⟨"Bpref", [("1", "C")]⟩),
    ("C", ⟨"Cpref", []⟩)]⟩

/-- The cyclic lockfile graph of the spec: X requires Y and Y requires X. -/
def cycleGraph : LockGraph :=
  ⟨[("X", ⟨"Xpref", [("1", "Y")]⟩), ("Y", ⟨"Ypref", [("1", "X")]⟩)]⟩

/-- Resolver for the cyclic graph (its value is irrelevant). -/
def cycleResolve (_ : String) : Finset Artifact := ∅

/-- Two artifacts agreeing on sha1 (hence on the overridden hash) but
differing in md5. -/
def artSameShaU : Artifact := ⟨"deadbeef", "md5-u", some "n1", none⟩

def artSameShaV : Artifact := ⟨"deadbeef", "md5-v", some "n1", none⟩

/-- Documents differing only in their version field. -/
def docVerL : BuildInfoDocument := ⟨"1.0.1", "b", "1", []⟩

def docVerR : BuildInfoDocument := ⟨"1.0.2", "b", "1", []⟩

/-- A conflict-free document with two modules, used as idempotence witness. -/
def docIdem : BuildInfoDocument :=
  ⟨"1.0.1", "b", "1", [⟨"m1", [artConfX], [artRootD]⟩, ⟨"m2", [artConfY], []⟩]⟩

/-- Left document of the disjoint-module merge witness. -/
def docUnionL : BuildInfoDocument := ⟨"1.0.1", "b", "1", [⟨"mL", [artConfX], []⟩]⟩

/-- Right document of the disjoint-module merge witness. -/
def docUnionR : BuildInfoDocument := ⟨"1.0.1", "b", "1", [⟨"mR", [artConfY], [artRootD]⟩]⟩

/-! Claim theorems. -/

/-- Claim C1 (code bug): on two documents whose module "m" holds artifacts
with the same name "a" but different sha1 ("X" vs "Y"), `merge_buildinfo`
does not raise: the conflict assertion of `merge_artifacts` compares
`art[cmp_key]` with `ret[art_cmp_key][cmp_key]`, two copies of the same key,
so it always passes and the left-hand entry is kept silently.  The merged
result is exactly the left-hand document. -/
theorem C1_merge_conflict_not_detected :
    merge_buildinfo (some docConfL) (some docConfR) = Except.ok (some docConfL) := by
  rfl

/-- Claim C2 (counterexample): in the diamond graph the resolver for node C's
pref is invoked twice by one top-level `_gather_deps` traversal — once per
dependency path — not exactly once as the claim states: there is no
memoization. -/
theorem C2_resolution_not_memoized :
    ((gatherDeps diamondGraph diamondResolve 10 "root").map
        (fun p => p.2.count "Cpref")) = some 2 ∧
      ((gatherDeps diamondGraph diamondResolve 10 "root").map
        (fun p => p.2.count "Cpref")) ≠ some 1 := by
  decide

/-- Claim C2 (amended): without memoization, a top-level traversal of the
diamond graph resolves each node once per dependency path — the resolver
call log is root, A, C, B, C, with C resolved twice — while the returned
artifact set still contains each of C's artifacts exactly once, because
artifact sets deduplicate. -/
theorem C2_per_path_resolution :
    gatherDeps diamondGraph diamondResolve 10 "root" =
      some ({artRootD, artAD, artBD, artCD1, artCD2},
        ["rootpref", "Apref", "Cpref", "Bpref", "Cpref"]) := by
  rfl

/-- Claim C4 (counterexample): two artifacts with the same sha1 (and hence
the same overridden hash key) but different md5 are not equal — namedtuple
equality is componentwise — and they remain two distinct elements of an
artifact set rather than collapsing to one. -/
theorem C4_same_sha1_not_equal :
    artSameShaU.sha1 = artSameShaV.sha1 ∧
      Artifact.hashKey artSameShaU = Artifact.hashKey artSameShaV ∧
      artSameShaU ≠ artSameShaV ∧
      ({artSameShaU, artSameShaV} : Finset Artifact).card = 2 := by
  decide

/-- Claim C4 (amended): two Artifact values are equal — and collapse to one
element of an artifact set — exactly when all four fields sha1, md5, name
and id coincide; the sha1 alone determines only the overridden hash, not
equality. -/
theorem C4_equality_componentwise :
    ∀ a b : Artifact,
      (a = b ↔ a.sha1 = b.sha1 ∧ a.md5 = b.md5 ∧ a.name = b.name ∧ a.id = b.id) ∧
      ({a, b} : Finset Artifact).card = if a = b then 1 else 2 := by
  intro a b
  constructor
  · constructor
    · intro h
      subst h
      exact ⟨rfl, rfl, rfl, rfl⟩
    · rintro ⟨h1, h2, h3, h4⟩
      cases a
      cases b
      simp_all
  · by_cases h : a = b
    · subst h
      simp
    · rw [if_neg h, Finset.card_insert_of_not_mem (by simp [h])]
      simp

/-- Claim C6: the empty document (the Python-falsy `{}`, modelled as `none`)
is a two-sided identity of `merge_buildinfo`: merging it with any document
`x` on either side yields `x` unchanged, with no error. -/
theorem C6_empty_identity :
    ∀ x : Option BuildInfoDocument,
      merge_buildinfo none x = Except.ok x ∧ merge_buildinfo x none = Except.ok x := by
  intro x
  cases x <;> exact ⟨rfl, rfl⟩

/-- Claim C9 (counterexample): the environment variable "my_secret", whose
name contains "secret" as a substring but is not literally equal to it,
is kept in the properties mapping — exclusion is by exact list membership,
not substring match. -/
theorem C9_substring_not_excluded :
    env_properties [("my_secret", "v")] = [("buildInfo.env.my_secret", "v")] ∧
      List.IsInfix "secret".data "my_secret".data := by
  constructor
  · decide
  · decide

lemma cycle_gather_none (fuel : Nat) :
    gatherDeps cycleGraph cycleResolve fuel "X" = none ∧
      gatherDeps cycleGraph cycleResolve fuel "Y" = none := by
  induction fuel with
  | zero => exact ⟨rfl, rfl⟩
  | succ n ih =>
      constructor
      · have hx : gatherDeps cycleGraph cycleResolve (n + 1) "X"
            = Option.bind
                (Option.bind (gatherDeps cycleGraph cycleResolve n "Y")
                  (fun sub => some (cycleResolve "Xpref" ∪ sub.1, "Xpref" :: sub.2)))
                some := rfl
        rw [hx, ih.2]
        rfl
      · have hy : gatherDeps cycleGraph cycleResolve (n + 1) "Y"
            = Option.bind
                (Option.bind (gatherDeps cycleGraph cycleResolve n "X")
                  (fun sub => some (cycleResolve "Ypref" ∪ sub.1, "Ypref" :: sub.2)))
                some := rfl
        rw [hy, ih.1]
        rfl

/-- Claim C3 (counterexample): on the cyclic graph X requires Y requires X,
the traversal of `_gather_deps` does not terminate — it completes under no
recursion-depth bound whatsoever — and in particular never raises a
GraphCycleError (no such detection, or error, exists in the code: the
recursion simply exceeds any stack). -/
theorem C3_no_cycle_error : gatherDiverges cycleGraph cycleResolve "X" :=
  fun fuel => (cycle_gather_none fuel).1

/-- Claim C3 (amended): on a cyclic lockfile graph the traversal recurses
unboundedly: from either node of the cycle, no recursion depth suffices for
`_gather_deps` to return (in CPython this surfaces as a RecursionError
when the interpreter stack limit is hit, not as a GraphCycleError). -/
theorem C3_unbounded_recursion :
    ∀ fuel,
      gatherDeps cycleGraph cycleResolve fuel "X" = none ∧
        gatherDeps cycleGraph cycleResolve fuel "Y" = none :=
  cycle_gather_none

/-- Claim C5: merging two documents whose version, name or number fields
differ fails with the incompatible-documents error and produces no merged
document. -/
theorem C5_incompatible_documents_error :
    ∀ l r : BuildInfoDocument,
      l.version ≠ r.version ∨ l.name ≠ r.name ∨ l.number ≠ r.number →
      ∃ e, merge_buildinfo (some l) (some r) = Except.error e := by
  intro l r h
  by_cases h1 : l.version = r.version
  · by_cases h2 : l.name = r.name
    · by_cases h3 : l.number = r.number
      · rcases h with h | h | h <;> contradiction
      · exact ⟨"IncompatibleDocumentsError: number", by simp [merge_buildinfo, h1, h2, h3]⟩
    · exact ⟨"IncompatibleDocumentsError: name", by simp [merge_buildinfo, h1, h2]⟩
  · exact ⟨"IncompatibleDocumentsError: version", by simp [merge_buildinfo, h1]⟩

/-- Claim C5 witness: two concrete documents differing only in version make
the merge fail. -/
theorem C5_incompatible_documents_error_witness :
    ∃ e, merge_buildinfo (some docVerL) (some docVerR) = Except.error e :=
  C5_incompatible_documents_error docVerL docVerR (Or.inl (by decide))

lemma string_append_cancel_left (a b c : String) (h : a ++ b = a ++ c) : b = c := by
  have hd : (a ++ b).data = (a ++ c).data := by rw [h]
  rw [String.data_append, String.data_append] at hd
  have hbc := List.append_cancel_left hd
  exact String.ext hbc

/-- Claim C9 (amended): an environment variable of the snapshot is kept —
under the `buildInfo.env.` prefix — exactly when its name is not literally
one of "secret", "key", "password"; the exclusion is an exact list-membership
test on the name, not a substring match, so names merely containing those
words pass through. -/
theorem C9_exact_match_exclusion :
    ∀ (environ : List (String × String)) (k v : String), (k, v) ∈ environ →
      (("buildInfo.env." ++ k, v) ∈ env_properties environ ↔
        (k ≠ "secret" ∧ k ≠ "key" ∧ k ≠ "password")) := by
  intro environ k v hmem
  constructor
  · intro hin
    rcases List.mem_map.mp hin with ⟨kv, hkvmem, hkveq⟩
    have hfst : "buildInfo.env." ++ kv.1 = "buildInfo.env." ++ k := congrArg Prod.fst hkveq
    have hk : kv.1 = k := string_append_cancel_left _ _ _ hfst
    have hfil := (List.mem_filter.mp hkvmem).2
    rw [hk] at hfil
    simpa [excludedEnv] using hfil
  · intro hne
    apply List.mem_map.mpr
    refine ⟨(k, v), ?_, rfl⟩
    apply List.mem_filter.mpr
    refine ⟨hmem, ?_⟩
    simp [excludedEnv]
    exact hne

/-- Claim C9 (amended) witness: the variable "my_secret" is kept in the
snapshot of the one-variable environment. -/
theorem C9_exact_match_exclusion_witness :
    ("buildInfo.env." ++ "my_secret", "v") ∈ env_properties [("my_secret", "v")] :=
  (C9_exact_match_exclusion [("my_secret", "v")] "my_secret" "v" (by simp)).mpr (by decide)

lemma except_bind_ok {α β γ : Type} (a : α) (f : α → Except γ β) :
    (Except.ok a >>= f : Except γ β) = f a := rfl

lemma except_pure_eq_ok {α γ : Type} (a : α) : (pure a : Except γ α) = Except.ok a := rfl

lemma dictGet_eq_none {d : List (Option String × Artifact)} {k : Option String}
    (h : ∀ p ∈ d, p.1 ≠ k) : dictGet d k = none := by
  unfold dictGet
  rw [List.find?_eq_none.mpr]
  · rfl
  · intro p hp
    simp [h p hp]

lemma dictGet_mem {d : List (Option String × Artifact)} {k : Option String} {v : Artifact}
    (h : dictGet d k = some v) : (k, v) ∈ d := by
  unfold dictGet at h
  rcases Option.map_eq_some'.mp h with ⟨p, hfind, hv⟩
  have hpk : p.1 = k := by
    have := List.find?_some hfind
    simpa using this
  have hmem := List.mem_of_find?_eq_some hfind
  have hp : p = (k, v) := by
    cases p
    simp_all
  rwa [hp] at hmem

lemma dictInsert_fresh {d : List (Option String × Artifact)} {k : Option String} {v : Artifact}
    (h : ∀ p ∈ d, p.1 ≠ k) : dictInsert d k v = d ++ [(k, v)] := by
  have hfalse : d.any (fun p => p.1 == k) = false := by
    rw [List.any_eq_false]
    intro p hp
    simp [h p hp]
  simp [dictInsert, hfalse]

lemma foldl_dictInsert_fresh (ck : CmpKey) :
    ∀ (arts : List Artifact) (d : List (Option String × Artifact)),
      (∀ a ∈ arts, ∀ p ∈ d, p.1 ≠ a.get ck) →
      (arts.map (fun a => a.get ck)).Nodup →
      arts.foldl (fun acc it => dictInsert acc (it.get ck) it) d
        = d ++ arts.map (fun a => (a.get ck, a)) := by
  intro arts
  induction arts with
  | nil =>
      intro d _ _
      simp
  | cons a rest ih =>
      intro d hfresh hnd
      have hnd2 : (a.get ck :: rest.map (fun x => x.get ck)).Nodup := by simpa using hnd
      have h1 : dictInsert d (a.get ck) a = d ++ [(a.get ck, a)] :=
        dictInsert_fresh (fun p hp => hfresh a (by simp) p hp)
      have hf2 : ∀ b ∈ rest, ∀ p ∈ d ++ [(a.get ck, a)], p.1 ≠ b.get ck := by
        intro b hb p hp
        rcases List.mem_append.mp hp with hpd | hpa
        · exact hfresh b (by simp [hb]) p hpd
        · have hpe : p = (a.get ck, a) := by simpa using hpa
          subst hpe
          intro he
          have he2 : a.get ck = b.get ck := he
          exact (List.nodup_cons.mp hnd2).1
            (by rw [he2]; exact List.mem_map.mpr ⟨b, hb, rfl⟩)
      have := ih (d ++ [(a.get ck, a)]) hf2 (List.nodup_cons.mp hnd2).2
      simp only [List.foldl_cons, h1, this, List.map_cons]
      simp

lemma buildRetDict_nodup (ck : CmpKey) (l : List Artifact)
    (hnd : (l.map (fun a => a.get ck)).Nodup) :
    buildRetDict ck l = l.map (fun a => (a.get ck, a)) := by
  unfold buildRetDict
  simpa using foldl_dictInsert_fresh ck l [] (by simp) hnd

lemma foldlM_mergeArtifactsStep_skip (ck : CmpKey) :
    ∀ (r : List Artifact) (d : List (Option String × Artifact)),
      (∀ p ∈ d, p.1 = p.2.get ck) →
      (∀ a ∈ r, ∃ p ∈ d, p.1 = a.get ck) →
      r.foldlM (mergeArtifactsStep ck) d = Except.ok d := by
  intro r
  induction r with
  | nil =>
      intro d _ _
      rfl
  | cons a rest ih =>
      intro d hwf hin
      obtain ⟨p, hp, hpk⟩ := hin a (by simp)
      have hsome : (d.find? (fun q => q.1 == a.get ck)).isSome := by
        rw [List.find?_isSome]
        exact ⟨p, hp, by simp [hpk]⟩
      rcases Option.isSome_iff_exists.mp hsome with ⟨q, hq⟩
      have hst : dictGet d (a.get ck) = some q.2 := by
        simp [dictGet, hq]
      have hmem := dictGet_mem hst
      have hkey : q.2.get ck = a.get ck := (hwf _ hmem).symm
      have hstep : mergeArtifactsStep ck d a = Except.ok d := by
        unfold mergeArtifactsStep
        rw [hst]
        simp [hkey]
        rfl
      rw [List.foldlM_cons, hstep, except_bind_ok]
      exact ih d hwf (fun b hb => hin b (by simp [hb]))

lemma foldlM_mergeArtifactsStep_insert (ck : CmpKey) :
    ∀ (r : List Artifact) (d : List (Option String × Artifact)),
      (∀ a ∈ r, ∀ p ∈ d, p.1 ≠ a.get ck) →
      (r.map (fun a => a.get ck)).Nodup →
      r.foldlM (mergeArtifactsStep ck) d
        = Except.ok (d ++ r.map (fun a => (a.get ck, a))) := by
  intro r
  induction r with
  | nil =>
      intro d _ _
      simp [List.foldlM, except_pure_eq_ok]
  | cons a rest ih =>
      intro d hfresh hnd
      have hnd2 : (a.get ck :: rest.map (fun x => x.get ck)).Nodup := by simpa using hnd
      have hnone : dictGet d (a.get ck) = none :=
        dictGet_eq_none (fun p hp => hfresh a (by simp) p hp)
      have hins : dictInsert d (a.get ck) a = d ++ [(a.get ck, a)] :=
        dictInsert_fresh (fun p hp => hfresh a (by simp) p hp)
      have hstep : mergeArtifactsStep ck d a = Except.ok (d ++ [(a.get ck, a)]) := by
        unfold mergeArtifactsStep
        rw [hnone, hins]
        rfl
      have hf2 : ∀ b ∈ rest, ∀ p ∈ d ++ [(a.get ck, a)], p.1 ≠ b.get ck := by
        intro b hb p hp
        rcases List.mem_append.mp hp with hpd | hpa
        · exact hfresh b (by simp [hb]) p hpd
        · have hpe : p = (a.get ck, a) := by simpa using hpa
          subst hpe
          intro he
          have he2 : a.get ck = b.get ck := he
          exact (List.nodup_cons.mp hnd2).1
            (by rw [he2]; exact List.mem_map.mpr ⟨b, hb, rfl⟩)
      rw [List.foldlM_cons, hstep, except_bind_ok,
        ih (d ++ [(a.get ck, a)]) hf2 (List.nodup_cons.mp hnd2).2]
      simp

lemma merge_artifacts_self (ck : CmpKey) (l : List Artifact)
    (hnd : (l.map (fun a => a.get ck)).Nodup) :
    merge_artifacts l l ck = Except.ok l := by
  unfold merge_artifacts
  rw [buildRetDict_nodup ck l hnd,
    foldlM_mergeArtifactsStep_skip ck l (l.map (fun a => (a.get ck, a)))
      (by
        intro p hp
        rcases List.mem_map.mp hp with ⟨a, ha, rfl⟩
        rfl)
      (fun a ha => ⟨(a.get ck, a), List.mem_map.mpr ⟨a, ha, rfl⟩, rfl⟩),
    except_bind_ok]
  have hcomp : ((fun p => p.2) ∘ fun a => ((a.get ck, a) : Option String × Artifact))
      = fun a => a := rfl
  rw [List.map_map, hcomp, List.map_id', except_pure_eq_ok]

lemma merge_artifacts_empty_left (ck : CmpKey) (r : List Artifact)
    (hnd : (r.map (fun a => a.get ck)).Nodup) :
    merge_artifacts [] r ck = Except.ok r := by
  unfold merge_artifacts
  have h0 : buildRetDict ck [] = [] := rfl
  rw [h0, foldlM_mergeArtifactsStep_insert ck r [] (by simp) hnd, except_bind_ok]
  have hcomp : ((fun p => p.2) ∘ fun a => ((a.get ck, a) : Option String × Artifact))
      = fun a => a := rfl
  simp only [List.nil_append]
  rw [List.map_map, hcomp, List.map_id', except_pure_eq_ok]

lemma find_module_found {modules : List Module} {mid : String} {m : Module}
    (h : modules.find? (fun x => x.id == mid) = some m) :
    find_module modules mid = (m, modules) := by
  unfold find_module
  rw [h]

lemma find_module_missing {modules : List Module} {mid : String}
    (h : modules.find? (fun x => x.id == mid) = none) :
    find_module modules mid = (⟨mid, [], []⟩, modules ++ [⟨mid, [], []⟩]) := by
  unfold find_module
  rw [h]

lemma find?_module_self :
    ∀ (modules : List Module) (m : Module),
      (modules.map (fun x => x.id)).Nodup → m ∈ modules →
      modules.find? (fun x => x.id == m.id) = some m := by
  intro modules
  induction modules with
  | nil =>
      intro m _ hm
      cases hm
  | cons h rest ih =>
      intro m hnd hm
      have hnd2 : (h.id :: rest.map (fun x => x.id)).Nodup := by simpa using hnd
      rcases List.mem_cons.mp hm with rfl | hmem
      · simp [List.find?_cons]
      · have hne : (h.id == m.id) = false := by
          rw [beq_eq_false_iff_ne]
          intro he
          exact (List.nodup_cons.mp hnd2).1
            (by rw [he]; exact List.mem_map.mpr ⟨m, hmem, rfl⟩)
        rw [List.find?_cons, hne]
        exact ih m (List.nodup_cons.mp hnd2).2 hmem

lemma replaceFirstById_self :
    ∀ (modules : List Module) (m : Module),
      (modules.map (fun x => x.id)).Nodup → m ∈ modules →
      replaceFirstById modules m.id m = modules := by
  intro modules
  induction modules with
  | nil =>
      intro m _ hm
      cases hm
  | cons h rest ih =>
      intro m hnd hm
      have hnd2 : (h.id :: rest.map (fun x => x.id)).Nodup := by simpa using hnd
      rcases List.mem_cons.mp hm with rfl | hmem
      · simp [replaceFirstById]
      · have hne : (h.id == m.id) = false := by
          rw [beq_eq_false_iff_ne]
          intro he
          exact (List.nodup_cons.mp hnd2).1
            (by rw [he]; exact List.mem_map.mpr ⟨m, hmem, rfl⟩)
        simp only [replaceFirstById, hne, Bool.false_eq_true, if_false]
        rw [ih m (List.nodup_cons.mp hnd2).2 hmem]

lemma replaceFirstById_append :
    ∀ (modules : List Module) (mid : String) (nm fresh : Module),
      (∀ x ∈ modules, x.id ≠ mid) → fresh.id = mid →
      replaceFirstById (modules ++ [fresh]) mid nm = modules ++ [nm] := by
  intro modules
  induction modules with
  | nil =>
      intro mid nm fresh _ hf
      simp [replaceFirstById, hf]
  | cons h rest ih =>
      intro mid nm fresh habs hf
      have hne : (h.id == mid) = false := by
        rw [beq_eq_false_iff_ne]
        exact habs h (by simp)
      simp only [List.cons_append, replaceFirstById, hne, Bool.false_eq_true, if_false,
        List.append_eq]
      rw [ih mid nm fresh (fun x hx => habs x (by simp [hx])) hf]

lemma mergeStep_self (modules : List Module) (m : Module)
    (hnd : (modules.map (fun x => x.id)).Nodup) (hm : m ∈ modules)
    (ha : (m.artifacts.map (fun a => a.get CmpKey.name)).Nodup)
    (hd : (m.dependencies.map (fun a => a.get CmpKey.id)).Nodup) :
    mergeStep modules m = Except.ok modules := by
  unfold mergeStep
  rw [find_module_found (find?_module_self modules m hnd hm)]
  simp only [merge_artifacts_self CmpKey.name m.artifacts ha,
    merge_artifacts_self CmpKey.id m.dependencies hd, except_bind_ok]
  have hm2 : ({ m with artifacts := m.artifacts, dependencies := m.dependencies } : Module)
      = m := rfl
  rw [hm2, replaceFirstById_self modules m hnd hm]
  rfl

lemma mergeStep_append (modules : List Module) (rm : Module)
    (habs : ∀ x ∈ modules, x.id ≠ rm.id)
    (ha : (rm.artifacts.map (fun a => a.get CmpKey.name)).Nodup)
    (hd : (rm.dependencies.map (fun a => a.get CmpKey.id)).Nodup) :
    mergeStep modules rm = Except.ok (modules ++ [rm]) := by
  unfold mergeStep
  have hfind : modules.find? (fun x => x.id == rm.id) = none := by
    rw [List.find?_eq_none]
    intro x hx
    simp [habs x hx]
  rw [find_module_missing hfind]
  simp only [merge_artifacts_empty_left CmpKey.name rm.artifacts ha,
    merge_artifacts_empty_left CmpKey.id rm.dependencies hd, except_bind_ok]
  rw [replaceFirstById_append modules rm.id
    { (⟨rm.id, [], []⟩ : Module) with artifacts := rm.artifacts, dependencies := rm.dependencies }
    ⟨rm.id, [], []⟩ habs rfl]
  rfl

lemma foldlM_mergeStep_const :
    ∀ (l : List Module) (modules : List Module),
      (∀ m ∈ l, mergeStep modules m = Except.ok modules) →
      l.foldlM mergeStep modules = Except.ok modules := by
  intro l
  induction l with
  | nil =>
      intro modules _
      rfl
  | cons a rest ih =>
      intro modules h
      rw [List.foldlM_cons, h a (by simp), except_bind_ok]
      exact ih modules (fun m hm => h m (by simp [hm]))

lemma foldlM_mergeStep_append :
    ∀ (l : List Module) (acc : List Module),
      (∀ m ∈ l, ∀ x ∈ acc, x.id ≠ m.id) →
      (l.map (fun m => m.id)).Nodup →
      (∀ m ∈ l, (m.artifacts.map (fun a => a.get CmpKey.name)).Nodup) →
      (∀ m ∈ l, (m.dependencies.map (fun a => a.get CmpKey.id)).Nodup) →
      l.foldlM mergeStep acc = Except.ok (acc ++ l) := by
  intro l
  induction l with
  | nil =>
      intro acc _ _ _ _
      simp [List.foldlM, except_pure_eq_ok]
  | cons m rest ih =>
      intro acc hdisj hnd ha hd
      have hnd2 : (m.id :: rest.map (fun x => x.id)).Nodup := by simpa using hnd
      have hdisj2 : ∀ m2 ∈ rest, ∀ x ∈ acc ++ [m], x.id ≠ m2.id := by
        intro m2 hm2 x hx
        rcases List.mem_append.mp hx with hxa | hxm
        · exact hdisj m2 (by simp [hm2]) x hxa
        · have hxe : x = m := by simpa using hxm
          subst hxe
          intro he
          exact (List.nodup_cons.mp hnd2).1
            (by rw [he]; exact List.mem_map.mpr ⟨m2, hm2, rfl⟩)
      rw [List.foldlM_cons,
        mergeStep_append acc m (fun x hx => hdisj m (by simp) x hx)
          (ha m (by simp)) (hd m (by simp)),
        except_bind_ok,
        ih (acc ++ [m]) hdisj2 (List.nodup_cons.mp hnd2).2
          (fun m2 hm2 => ha m2 (by simp [hm2]))
          (fun m2 hm2 => hd m2 (by simp [hm2]))]
      simp

/-- Claim C7: merging a conflict-free document with itself yields the same
document and raises nothing.  Conflict-free means the document is
well-formed as the spec demands: module ids are unique, and within each
module the artifact names and the dependency ids are unique. -/
theorem C7_merge_idempotent (d : BuildInfoDocument)
    (hids : (d.modules.map (fun m => m.id)).Nodup)
    (harts : ∀ m ∈ d.modules, (m.artifacts.map (fun a => a.get CmpKey.name)).Nodup)
    (hdeps : ∀ m ∈ d.modules, (m.dependencies.map (fun a => a.get CmpKey.id)).Nodup) :
    merge_buildinfo (some d) (some d) = Except.ok (some d) := by
  simp only [merge_buildinfo]
  rw [if_neg (by simp), if_neg (by simp), if_neg (by simp),
    foldlM_mergeStep_const d.modules d.modules
      (fun m hm => mergeStep_self d.modules m hids hm (harts m hm) (hdeps m hm)),
    except_bind_ok]
  rfl

/-- Claim C7 witness: a concrete two-module conflict-free document merged
with itself gives itself back. -/
theorem C7_merge_idempotent_witness :
    merge_buildinfo (some docIdem) (some docIdem) = Except.ok (some docIdem) :=
  C7_merge_idempotent docIdem (by decide) (by decide) (by decide)

/-- Claim C8: merging two compatible documents whose module id sets are
disjoint (with the right-hand document well-formed: unique module ids,
unique artifact names and dependency ids per module) yields the left-hand
document's metadata with the modules of both documents concatenated, every
module's artifact and dependency lists intact from its origin document. -/
theorem C8_disjoint_merge_union (l r : BuildInfoDocument)
    (hv : l.version = r.version) (hn : l.name = r.name) (hnum : l.number = r.number)
    (hdisj : ∀ m ∈ r.modules, ∀ x ∈ l.modules, x.id ≠ m.id)
    (hrnd : (r.modules.map (fun m => m.id)).Nodup)
    (harts : ∀ m ∈ r.modules, (m.artifacts.map (fun a => a.get CmpKey.name)).Nodup)
    (hdeps : ∀ m ∈ r.modules, (m.dependencies.map (fun a => a.get CmpKey.id)).Nodup) :
    merge_buildinfo (some l) (some r) =
      Except.ok (some { l with modules := l.modules ++ r.modules }) := by
  simp only [merge_buildinfo]
  rw [if_neg (by simp [hv]), if_neg (by simp [hn]), if_neg (by simp [hnum]),
    foldlM_mergeStep_append r.modules l.modules hdisj hrnd harts hdeps,
    except_bind_ok]
  rfl

/-- Claim C8 witness: two concrete compatible documents with disjoint module
ids merge into the union of their modules. -/
theorem C8_disjoint_merge_union_witness :
    merge_buildinfo (some docUnionL) (some docUnionR) =
      Except.ok (some { docUnionL with modules := docUnionL.modules ++ docUnionR.modules }) :=
  C8_disjoint_merge_union docUnionL docUnionR (by decide) (by decide) (by decide)
    (by decide) (by decide) (by decide) (by decide)

end BuildInfo
